import Mathlib

/-!
Shallow embedding of the reviewer-assignment service of
`pr-reviewer-service` (Go).  The relational store (PostgreSQL, accessed in
`internal/storage/storage.go`) is modelled as an in-memory state acted on by
pure functions that mirror the SQL statements; the business logic of
`internal/service/service.go` is translated operation by operation.
Timestamps are modelled as `Nat` values passed in explicitly (the Go code
calls `time.Now()` at each write).  The process-wide pseudorandom source is
modelled by explicit parameters: `rng.Perm n` becomes a `List Nat` argument
that is (in the theorems) assumed to be a permutation of `range n`, and
`rng.Intn n` becomes a `Nat` argument reduced modulo `n`, which reaches
exactly the values `0 .. n-1` that `Intn` can produce.
-/

/-- A row of the `users` table (`internal/model`, fields used by the
service): unique id, display name, owning team, active flag.
The `updated_at` column is never read by the service and is not modelled. -/
structure User where
  userID : String
  username : String
  teamName : String
  isActive : Bool
deriving DecidableEq, Repr

/-- A member entry as returned inside a `Team` (`model.TeamMember`). -/
structure TeamMember where
  userID : String
  username : String
  isActive : Bool
deriving DecidableEq, Repr

/-- Model of `model.Team`: a team name together with its member rows. -/
structure Team where
  teamName : String
  members : List TeamMember
deriving DecidableEq, Repr

/-- Model of `model.StatusOpen`: PR status string stored in the `status` column. -/
def statusOpen : String := "OPEN"

/-- Model of `model.StatusMerged`: PR status string stored in the `status` column. -/
def statusMerged : String := "MERGED"

/-- Model of `model.PullRequest`: one row of `pull_requests` joined with its ordered
reviewer links from `pr_reviewers` (ordered by `assigned_at`, which the
model realises as list order: creation inserts in order, reassignment
removes the old link and appends the new one). -/
structure PullRequest where
  pullRequestID : String
  pullRequestName : String
  authorID : String
  status : String
  assignedReviewers : List String
  createdAt : Option Nat
  mergedAt : Option Nat
deriving DecidableEq, Repr

/-- The relational store: `teams`, `users` and `pull_requests` (with their
reviewer links embedded in each `PullRequest`). -/
structure StorageState where
  teams : List String
  users : List User
  prs : List PullRequest
deriving DecidableEq, Repr

/-- Storage-level errors: `sql.ErrNoRows`, a unique-key violation, or an
opaque driver/connectivity failure (environment-injected). -/
inductive StoreErr where
  | noRows
  | uniqueViolation
  | fault (msg : String)
deriving DecidableEq, Repr

/-- Modelled from the spec: the string error sentinels of the missing
`internal/model` package (spec section 7 taxonomy; the handler compares them
by value, so they are a closed set of distinct values).  `store e` is a
storage-level error propagated unchanged by the service. -/
inductive Err where
  | notFound
  | teamExists
  | prExists
  | prMerged
  | notAssigned
  | noCandidate
  | store (e : StoreErr)
deriving DecidableEq, Repr

/-- Primary-key invariant of the `users` table: user ids are unique. -/
def usersNodup (st : StorageState) : Prop :=
  (st.users.map User.userID).Nodup

/-- Primary-key invariant of the `pull_requests` table: PR ids are unique. -/
def prsNodup (st : StorageState) : Prop :=
  (st.prs.map PullRequest.pullRequestID).Nodup

/-- Kernel-computable lexicographic comparison of character lists, used to
model the store's `ORDER BY user_id` collation. -/
def charsLe : List Char → List Char → Bool
  | [], _ => true
  | _ :: _, [] => false
  | a :: as, b :: bs =>
    if a.toNat < b.toNat then true
    else if b.toNat < a.toNat then false
    else charsLe as bs

/-- Lexicographic order on strings via their character data. -/
def strLe (a b : String) : Bool := charsLe a.data b.data

/-- Insert a user into a list kept sorted by user id. -/
def ordInsertUser (a : User) : List User → List User
  | [] => [a]
  | b :: l => if strLe a.userID b.userID then a :: b :: l else b :: ordInsertUser a l

/-- Insertion sort by user id: the model of `ORDER BY user_id`. -/
def sortByUserID : List User → List User
  | [] => []
  | a :: l => ordInsertUser a (sortByUserID l)

namespace Storage

/-- Model of `Storage.TeamExists`: `SELECT EXISTS(... WHERE team_name = $1)`. -/
def TeamExists (st : StorageState) (teamName : String) : Bool :=
  st.teams.contains teamName

/-- Model of `Storage.GetTeam`: `nil` when the team is absent, otherwise the team
with its member rows `ORDER BY user_id`. -/
def GetTeam (st : StorageState) (teamName : String) : Option Team :=
  if st.teams.contains teamName then
    let rows := sortByUserID (st.users.filter (fun u => u.teamName == teamName))
    some { teamName := teamName
           members := rows.map (fun u => ⟨u.userID, u.username, u.isActive⟩) }
  else none

/-- Model of `Storage.GetUser`: `SELECT ... WHERE user_id = $1`, `nil` on no rows. -/
def GetUser (st : StorageState) (userID : String) : Option User :=
  st.users.find? (fun u => u.userID == userID)

/-- Model of `Storage.SetUserActive`: `UPDATE users SET is_active = $1 WHERE user_id
= $3`; `sql.ErrNoRows` when zero rows were affected.  `execFault` injects a
driver-level failure of the `UPDATE` (connectivity etc.). -/
def SetUserActive (st : StorageState) (userID : String) (isActive : Bool)
    (execFault : Option String) : Except StoreErr StorageState :=
  match execFault with
  | some msg => .error (.fault msg)
  | none =>
    if st.users.any (fun u => u.userID == userID) then
      .ok { st with users := st.users.map (fun u =>
              if u.userID == userID then { u with isActive := isActive } else u) }
    else .error .noRows

/-- Model of `Storage.GetActiveTeamMembers`: `SELECT ... WHERE team_name = $1 AND
is_active = true AND user_id != $2 ORDER BY user_id`.  Note that the query
compares `user_id != $2` even when the caller passes the empty string, so an
exclude argument of `""` excludes users whose id is the empty string. -/
def GetActiveTeamMembers (st : StorageState) (teamName excludeUserID : String) :
    List User :=
  sortByUserID (st.users.filter (fun u =>
    u.teamName == teamName && u.isActive && u.userID != excludeUserID))

/-- Model of `Storage.CreatePR`: one transaction inserting the `pull_requests` row
(with `created_at = now`) and one `pr_reviewers` row per reviewer in list
order.  A duplicate PR id or a duplicate reviewer violates a primary key
and rolls the transaction back. -/
def CreatePR (st : StorageState) (pr : PullRequest) (now : Nat) :
    Except StoreErr StorageState :=
  if st.prs.any (fun q => q.pullRequestID == pr.pullRequestID) then
    .error .uniqueViolation
  else if pr.assignedReviewers.Nodup then
    .ok { st with prs := st.prs ++ [{ pr with createdAt := some now }] }
  else .error .uniqueViolation

/-- Model of `Storage.PRExists`: `SELECT EXISTS(... WHERE pull_request_id = $1)`. -/
def PRExists (st : StorageState) (prID : String) : Bool :=
  st.prs.any (fun q => q.pullRequestID == prID)

/-- Model of `Storage.GetPR`: the PR row plus its reviewers ordered by
`assigned_at`; `nil` when absent. -/
def GetPR (st : StorageState) (prID : String) : Option PullRequest :=
  st.prs.find? (fun q => q.pullRequestID == prID)

/-- Model of `Storage.MergePR`: `UPDATE pull_requests SET status = MERGED, merged_at
= $2 WHERE pull_request_id = $3`; `sql.ErrNoRows` when no row matched. -/
def MergePR (st : StorageState) (prID : String) (now : Nat) :
    Except StoreErr StorageState :=
  if st.prs.any (fun q => q.pullRequestID == prID) then
    .ok { st with prs := st.prs.map (fun q =>
            if q.pullRequestID == prID then
              { q with status := statusMerged, mergedAt := some now }
            else q) }
  else .error .noRows

/-- Model of `Storage.ReassignReviewer`: one transaction that deletes the
`(prID, oldUserID)` reviewer link (`sql.ErrNoRows` and rollback when zero
rows were deleted) and inserts the `(prID, newUserID)` link, which appends
it at the end of the `assigned_at` order; inserting a link that already
exists violates the primary key and rolls back. -/
def ReassignReviewer (st : StorageState) (prID oldUserID newUserID : String) :
    Except StoreErr StorageState :=
  match st.prs.find? (fun q => q.pullRequestID == prID) with
  | none => .error .noRows
  | some pr =>
    if pr.assignedReviewers.contains oldUserID then
      let remaining := pr.assignedReviewers.filter (fun r => r != oldUserID)
      if remaining.contains newUserID then .error .uniqueViolation
      else
        .ok { st with prs := st.prs.map (fun q =>
                if q.pullRequestID == prID then
                  { q with assignedReviewers :=
                      (q.assignedReviewers.filter (fun r => r != oldUserID)) ++ [newUserID] }
                else q) }
    else .error .noRows

/-- Model of `Storage.DeactivateTeam`: in one transaction, read the ids of the
team's currently-active users, and unless that list is empty flip
`is_active` to false for all of them. -/
def DeactivateTeam (st : StorageState) (teamName : String) :
    StorageState × List String :=
  let userIDs := (st.users.filter (fun u => u.teamName == teamName && u.isActive)).map
    User.userID
  if userIDs.isEmpty then (st, userIDs)
  else
    ({ st with users := st.users.map (fun u =>
        if u.teamName == teamName && u.isActive then { u with isActive := false }
        else u) },
     userIDs)

/-- Model of `Storage.GetOpenPRsForReviewers`: `SELECT DISTINCT p.pull_request_id
... WHERE p.status = OPEN AND pr.user_id IN (userIDs)`; empty input gives
an empty result without querying. -/
def GetOpenPRsForReviewers (st : StorageState) (userIDs : List String) :
    List String :=
  if userIDs.isEmpty then []
  else
    ((st.prs.filter (fun p =>
        p.status == statusOpen &&
        p.assignedReviewers.any (fun r => userIDs.contains r))).map
      PullRequest.pullRequestID)

end Storage

/-- Result record of `Service.DeactivateTeam` (the Go code returns it as a
JSON map with keys `team_name`, `deactivated_users`, `reassigned_prs`,
`failed_reassignments`). -/
structure DeactivateResult where
  teamName : String
  deactivatedUsers : List String
  reassignedPRs : List String
  failedReassignments : List String
deriving DecidableEq, Repr

/-- Placeholder user for total indexing; never actually selected because
indices are always reduced modulo the (positive) pool length. -/
def defaultUser : User := ⟨"", "", "", false⟩

namespace Service

/-- Model of `Service.SetUserActive`: any storage failure whatsoever is reported as
`NotFound`; on success the user is re-read (a `nil` read yields no user and
no error, exactly as the Go code returns `s.store.GetUser(userID)`). -/
def SetUserActive (st : StorageState) (userID : String) (isActive : Bool)
    (execFault : Option String) : StorageState × Except Err (Option User) :=
  match Storage.SetUserActive st userID isActive execFault with
  | .error _ => (st, .error .notFound)
  | .ok st1 => (st1, .ok (Storage.GetUser st1 userID))

/-- Model of `Service.selectRandomReviewers`: here `perm` is the output of
`rng.Perm(len(users))`; the first `min maxCount (length users)` permuted
indices pick the reviewers (`users[indices[i]].UserID`). -/
def selectRandomReviewers (users : List User) (maxCount : Nat)
    (perm : List Nat) : List String :=
  if users.isEmpty then []
  else
    let count := min maxCount users.length
    (perm.take count).filterMap (fun i => (users[i]?).map User.userID)

/-- Model of `Service.CreatePR`: duplicate-id check, author lookup, pool of active
team members of the author's team excluding the author, random selection of
up to two reviewers, atomic persist, then re-read. -/
def CreatePR (st : StorageState) (prID prName authorID : String)
    (perm : List Nat) (now : Nat) :
    StorageState × Except Err (Option PullRequest) :=
  if Storage.PRExists st prID then (st, .error .prExists)
  else
    match Storage.GetUser st authorID with
    | none => (st, .error .notFound)
    | some author =>
      let activeMembers := Storage.GetActiveTeamMembers st author.teamName authorID
      let reviewers := selectRandomReviewers activeMembers 2 perm
      let pr : PullRequest :=
        { pullRequestID := prID
          pullRequestName := prName
          authorID := authorID
          status := statusOpen
          assignedReviewers := reviewers
          createdAt := none
          mergedAt := none }
      match Storage.CreatePR st pr now with
      | .error e => (st, .error (.store e))
      | .ok st1 => (st1, .ok (Storage.GetPR st1 prID))

/-- Model of `Service.MergePR`: `NotFound` when absent; when already merged, return
the current row with no write; otherwise update and re-read. -/
def MergePR (st : StorageState) (prID : String) (now : Nat) :
    StorageState × Except Err (Option PullRequest) :=
  match Storage.GetPR st prID with
  | none => (st, .error .notFound)
  | some pr =>
    if pr.status == statusMerged then (st, .ok (some pr))
    else
      match Storage.MergePR st prID now with
      | .error e => (st, .error (.store e))
      | .ok st1 => (st1, .ok (Storage.GetPR st1 prID))

/-- The `availableCandidates` slice computed inside
`Service.ReassignReviewer`: active members of the old reviewer's team
(queried with the empty string as the exclude argument) minus the exclusion
set consisting of the old reviewer, the author, and all assigned
reviewers. -/
def reassignCandidates (st : StorageState) (pr : PullRequest)
    (oldUserID : String) (oldUser : User) : List User :=
  (Storage.GetActiveTeamMembers st oldUser.teamName "").filter (fun c =>
    !(c.userID == oldUserID || c.userID == pr.authorID ||
      pr.assignedReviewers.contains c.userID))

/-- Model of `Service.ReassignReviewer`: the four short-circuiting precondition
checks, candidate computation, uniform pick (`rng.Intn` modelled by
`pick % length`), transactional swap, then re-read. -/
def ReassignReviewer (st : StorageState) (prID oldUserID : String)
    (pick : Nat) : StorageState × Except Err (Option PullRequest × String) :=
  match Storage.GetPR st prID with
  | none => (st, .error .notFound)
  | some pr =>
    if pr.status == statusMerged then (st, .error .prMerged)
    else if !(pr.assignedReviewers.contains oldUserID) then
      (st, .error .notAssigned)
    else
      match Storage.GetUser st oldUserID with
      | none => (st, .error .notFound)
      | some oldUser =>
        let availableCandidates := reassignCandidates st pr oldUserID oldUser
        if availableCandidates.isEmpty then (st, .error .noCandidate)
        else
          let newReviewer :=
            availableCandidates.getD (pick % availableCandidates.length) defaultUser
          match Storage.ReassignReviewer st prID oldUserID newReviewer.userID with
          | .error e => (st, .error (.store e))
          | .ok st1 => (st1, .ok (Storage.GetPR st1 prID, newReviewer.userID))

/-- Membership test of the inner `DeactivateTeam` loop: does the PR have at
least one just-deactivated user among its assigned reviewers. -/
def hasDeactivatedReviewer (dact : List String) (pr : PullRequest) : Bool :=
  pr.assignedReviewers.any (fun r => dact.contains r)

/-- One iteration of the inner reviewer loop of `Service.DeactivateTeam`
for reviewer `reviewerID` of the snapshot `pr`: skip non-deactivated
reviewers; look up the old user (skip on failure); compute candidates from
the old user's team minus author and all assigned reviewers; when the pool
is nonempty consume one random draw (`picks k`) and attempt the
transactional swap.  Returns the new store, the new draw counter, and
whether a replacement succeeded (the Go loop breaks on success). -/
def attemptOne (st : StorageState) (dact : List String) (pr : PullRequest)
    (reviewerID : String) (picks : Nat → Nat) (k : Nat) :
    StorageState × Nat × Bool :=
  if dact.contains reviewerID then
    match Storage.GetUser st reviewerID with
    | none => (st, k, false)
    | some oldUser =>
      let candidates := Storage.GetActiveTeamMembers st oldUser.teamName ""
      let available := candidates.filter (fun c =>
        !(c.userID == pr.authorID || pr.assignedReviewers.contains c.userID))
      if available.isEmpty then (st, k, false)
      else
        let newReviewer := available.getD (picks k % available.length) defaultUser
        match Storage.ReassignReviewer st pr.pullRequestID reviewerID
            newReviewer.userID with
        | .ok st1 => (st1, k + 1, true)
        | .error _ => (st, k + 1, false)
  else (st, k, false)

/-- The inner reviewer loop of `Service.DeactivateTeam` over the snapshot's
reviewer list in assignment order, stopping at the first success. -/
def attemptReviewers (st : StorageState) (dact : List String)
    (pr : PullRequest) (rs : List String) (picks : Nat → Nat) (k : Nat) :
    StorageState × Nat × Bool :=
  match rs with
  | [] => (st, k, false)
  | r :: rest =>
    match attemptOne st dact pr r picks k with
    | (st1, k1, true) => (st1, k1, true)
    | (st1, k1, false) => attemptReviewers st1 dact pr rest picks k1

/-- The outer PR loop of `Service.DeactivateTeam`: a PR whose re-read fails
goes to `failed_reassignments`; a PR without a deactivated reviewer is
skipped; otherwise the reviewer loop runs and on success the PR id goes to
`reassigned_prs`.  Returns the final store, draw counter, and the two id
lists in iteration order. -/
def deactivateLoop (dact : List String) (picks : Nat → Nat) :
    StorageState → Nat → List String →
    StorageState × Nat × List String × List String
  | st, k, [] => (st, k, [], [])
  | st, k, prID :: rest =>
    match Storage.GetPR st prID with
    | none =>
      let (st2, k2, re, fa) := deactivateLoop dact picks st k rest
      (st2, k2, re, prID :: fa)
    | some pr =>
      if hasDeactivatedReviewer dact pr then
        match attemptReviewers st dact pr pr.assignedReviewers picks k with
        | (st1, k1, ok) =>
          let (st2, k2, re, fa) := deactivateLoop dact picks st1 k1 rest
          if ok then (st2, k2, prID :: re, fa) else (st2, k2, re, fa)
      else deactivateLoop dact picks st k rest

/-- Model of `Service.DeactivateTeam`: team existence check, atomic bulk
deactivation, short-circuit on an empty flipped list, then the best-effort
per-PR reassignment batch over the open PRs that have a deactivated
reviewer. -/
def DeactivateTeam (st : StorageState) (teamName : String)
    (picks : Nat → Nat) : StorageState × Except Err DeactivateResult :=
  match Storage.GetTeam st teamName with
  | none => (st, .error .notFound)
  | some _ =>
    match Storage.DeactivateTeam st teamName with
    | (st1, dact) =>
      if dact.isEmpty then (st1, .ok ⟨teamName, [], [], []⟩)
      else
        let prIDs := Storage.GetOpenPRsForReviewers st1 dact
        match deactivateLoop dact picks st1 0 prIDs with
        | (st2, _, re, fa) => (st2, .ok ⟨teamName, dact, re, fa⟩)

end Service

/-- The candidate pool as spec section 4.1 words it: active members of the
old reviewer's team, excluding the old reviewer, the PR's author, and every
currently assigned reviewer.  Used to compare the spec's wording with the
pool the code computes (`Service.reassignCandidates`). -/
def specCandidatePool (st : StorageState) (pr : PullRequest)
    (oldUserID : String) (oldUser : User) : List User :=
  st.users.filter (fun u =>
    u.isActive && u.teamName == oldUser.teamName &&
    !(u.userID == oldUserID || u.userID == pr.authorID ||
      pr.assignedReviewers.contains u.userID))

/-- A degenerate random stream: every draw is 0. -/
def zeroPicks : Nat → Nat := fun _ => 0

/-- Empty store. -/
def exStEmpty : StorageState := ⟨[], [], []⟩

/-- Spec section 8 scenario: team `backend` with u1 (author), u2, u3 all
active; open PR pr-1001 authored by u1 with reviewers u2 and u3. -/
def exPr1 : PullRequest :=
  ⟨"pr-1001", "Add feature", "u1", statusOpen, ["u2", "u3"], none, none⟩

/-- Store for the spec section 8 deactivation scenario. -/
def exSt1 : StorageState :=
  ⟨["backend"],
   [⟨"u1", "Alice", "backend", true⟩,
    ⟨"u2", "Bob", "backend", true⟩,
    ⟨"u3", "Carol", "backend", true⟩],
   [exPr1]⟩

/-- The store `exSt1` after the bulk deactivation flipped every member inactive. -/
def exSt1Deact : StorageState :=
  ⟨["backend"],
   [⟨"u1", "Alice", "backend", false⟩,
    ⟨"u2", "Bob", "backend", false⟩,
    ⟨"u3", "Carol", "backend", false⟩],
   [exPr1]⟩

/-- Post-deactivation store used to exercise the inner reviewer loop
directly: both reviewers of pr-1001 already inactive. -/
def exStLoop : StorageState := exSt1Deact

/-- Store for the empty-pool reassignment witness: the old reviewer u2 is
the sole member of team t2, so every active member of t2 is excluded. -/
def exStC3 : StorageState :=
  ⟨["t1", "t2"],
   [⟨"u1", "Alice", "t1", true⟩, ⟨"u2", "Bob", "t2", true⟩],
   [⟨"p1", "Fix", "u1", statusOpen, ["u2"], none, none⟩]⟩

/-- Store with a merged PR for the frozen-reviewers witness. -/
def exStC4 : StorageState :=
  ⟨["t1"],
   [⟨"u1", "Alice", "t1", true⟩, ⟨"u2", "Bob", "t1", true⟩],
   [⟨"p1", "Fix", "u1", statusMerged, ["u2"], some 1, some 5⟩]⟩

/-- Store with a merged PR for the idempotent-merge witness. -/
def exStC7 : StorageState :=
  ⟨["t1"],
   [⟨"u1", "Alice", "t1", true⟩, ⟨"u2", "Bob", "t1", true⟩],
   [⟨"p7", "Feat", "u1", statusMerged, ["u2"], some 1, some 3⟩]⟩

/-- Store for the zero-active-members deactivation witness: team t exists,
its only member is inactive, and an open PR is present in the store. -/
def exStC8 : StorageState :=
  ⟨["t"],
   [⟨"u1", "Alice", "t", false⟩],
   [⟨"p1", "Fix", "u1", statusOpen, ["u1"], none, none⟩]⟩

/-- Store for the store-failure-maps-to-NotFound witness: the user exists,
yet the UPDATE fails at the driver level. -/
def exStC10 : StorageState :=
  ⟨["t"], [⟨"u1", "Alice", "t", true⟩], []⟩

/-- Store for the create-PR witness: author u1 with active teammates u2
and u3. -/
def exStC6 : StorageState :=
  ⟨["t"],
   [⟨"u1", "Alice", "t", true⟩,
    ⟨"u2", "Bob", "t", true⟩,
    ⟨"u3", "Carol", "t", true⟩],
   []⟩

/-- Old reviewer record of the C5 counterexample store. -/
def exOld5 : User := ⟨"u2", "Bob", "t", true⟩

/-- Open PR of the C5 counterexample store. -/
def exPr5 : PullRequest := ⟨"p1", "Fix", "u1", statusOpen, ["u2"], none, none⟩

/-- Counterexample store for the candidate-pool claim: team t contains an
active user whose id is the empty string; that user is the only member not
excluded by the spec's three exclusions, yet the code's query (which passes
the empty string as the exclude argument) drops it from the pool. -/
def exSt5 : StorageState :=
  ⟨["t"],
   [⟨"", "Eve", "t", true⟩,
    ⟨"u1", "Alice", "t", true⟩,
    exOld5],
   [exPr5]⟩

/-- Store for the successful-reassignment witness: u3 is the one eligible
replacement for old reviewer u2 on p1. -/
def exStC5w : StorageState :=
  ⟨["t"],
   [⟨"u1", "Alice", "t", true⟩,
    ⟨"u2", "Bob", "t", false⟩,
    ⟨"u3", "Carol", "t", true⟩],
   [⟨"p1", "Fix", "u1", statusOpen, ["u2"], none, none⟩]⟩

/-- The store `exStC5w` after u2 was swapped for u3 on p1. -/
def exStC5wAfter : StorageState :=
  ⟨["t"],
   [⟨"u1", "Alice", "t", true⟩,
    ⟨"u2", "Bob", "t", false⟩,
    ⟨"u3", "Carol", "t", true⟩],
   [⟨"p1", "Fix", "u1", statusOpen, ["u3"], none, none⟩]⟩

theorem perm_ordInsertUser (a : User) :
    ∀ l : List User, (ordInsertUser a l).Perm (a :: l) := by
  intro l
  induction l with
  | nil => rfl
  | cons b tl ih =>
    unfold ordInsertUser
    by_cases h : strLe a.userID b.userID = true
    · rw [if_pos h]
    · rw [if_neg h]
      exact (ih.cons b).trans (List.Perm.swap a b tl)

theorem perm_sortByUserID :
    ∀ l : List User, (sortByUserID l).Perm l := by
  intro l
  induction l with
  | nil => rfl
  | cons a tl ih =>
    unfold sortByUserID
    exact (perm_ordInsertUser a (sortByUserID tl)).trans (ih.cons a)

theorem mem_sortByUserID {u : User} {l : List User} :
    u ∈ sortByUserID l ↔ u ∈ l :=
  (perm_sortByUserID l).mem_iff

theorem mem_getActiveTeamMembers {st : StorageState} {tn ex : String} {u : User} :
    u ∈ Storage.GetActiveTeamMembers st tn ex ↔
      u ∈ st.users ∧ u.teamName = tn ∧ u.isActive = true ∧ u.userID ≠ ex := by
  unfold Storage.GetActiveTeamMembers
  rw [mem_sortByUserID, List.mem_filter]
  simp [and_assoc]

theorem getUser_mem {st : StorageState} {uid : String} {u : User}
    (h : Storage.GetUser st uid = some u) : u ∈ st.users ∧ u.userID = uid := by
  unfold Storage.GetUser at h
  refine ⟨List.mem_of_find?_eq_some h, ?_⟩
  have := List.find?_some h
  simpa using this

/-- C2: ReassignReviewer checks its preconditions in a fixed order, each
short-circuiting with its distinct error: absent PR gives NotFound; a
merged PR gives PRMerged; an old reviewer not currently assigned gives
NotAssigned; an old reviewer id that resolves to no user gives NotFound.
In each case the first failing check's error is returned and the store is
left untouched. -/
theorem C2_reassign_precondition_order :
    (∀ st prID oldUserID pick, Storage.GetPR st prID = none →
      Service.ReassignReviewer st prID oldUserID pick = (st, .error .notFound)) ∧
    (∀ st prID oldUserID pick pr, Storage.GetPR st prID = some pr →
      pr.status = statusMerged →
      Service.ReassignReviewer st prID oldUserID pick = (st, .error .prMerged)) ∧
    (∀ st prID oldUserID pick pr, Storage.GetPR st prID = some pr →
      pr.status ≠ statusMerged → oldUserID ∉ pr.assignedReviewers →
      Service.ReassignReviewer st prID oldUserID pick = (st, .error .notAssigned)) ∧
    (∀ st prID oldUserID pick pr, Storage.GetPR st prID = some pr →
      pr.status ≠ statusMerged → oldUserID ∈ pr.assignedReviewers →
      Storage.GetUser st oldUserID = none →
      Service.ReassignReviewer st prID oldUserID pick = (st, .error .notFound)) := by
  refine ⟨?_, ?_, ?_, ?_⟩
  · intro st prID oldUserID pick h
    simp [Service.ReassignReviewer, h]
  · intro st prID oldUserID pick pr h hm
    simp [Service.ReassignReviewer, h, hm]
  · intro st prID oldUserID pick pr h hm hmem
    simp [Service.ReassignReviewer, h, hm, hmem]
  · intro st prID oldUserID pick pr h hm hmem hu
    simp [Service.ReassignReviewer, h, hm, hmem, hu]

/-- Witness for C2 at a concrete input: on the empty store the PR lookup
fails, so the call returns NotFound without touching the store. -/
theorem C2_reassign_precondition_order_witness :
    Service.ReassignReviewer exStEmpty "p1" "u1" 0 = (exStEmpty, .error .notFound) :=
  C2_reassign_precondition_order.1 exStEmpty "p1" "u1" 0 rfl

/-- C4: on a merged PR, ReassignReviewer always fails with PRMerged, the
store is returned unchanged (so no write happened before the status
check), and the PR row with its reviewer set is exactly as before. -/
theorem C4_merged_pr_frozen :
    ∀ st prID oldUserID pick pr, Storage.GetPR st prID = some pr →
      pr.status = statusMerged →
      (Service.ReassignReviewer st prID oldUserID pick).2 = .error .prMerged ∧
      (Service.ReassignReviewer st prID oldUserID pick).1 = st ∧
      Storage.GetPR (Service.ReassignReviewer st prID oldUserID pick).1 prID
        = some pr := by
  intro st prID oldUserID pick pr h hm
  simp [Service.ReassignReviewer, h, hm]

/-- Witness for C4: reassigning u2 away from the merged PR p1 fails with
PRMerged and leaves the row (status MERGED, reviewers [u2]) in place. -/
theorem C4_merged_pr_frozen_witness :
    (Service.ReassignReviewer exStC4 "p1" "u2" 0).2 = .error .prMerged ∧
    (Service.ReassignReviewer exStC4 "p1" "u2" 0).1 = exStC4 ∧
    Storage.GetPR (Service.ReassignReviewer exStC4 "p1" "u2" 0).1 "p1"
      = some ⟨"p1", "Fix", "u1", statusMerged, ["u2"], some 1, some 5⟩ :=
  C4_merged_pr_frozen exStC4 "p1" "u2" 0
    ⟨"p1", "Fix", "u1", statusMerged, ["u2"], some 1, some 5⟩ rfl rfl

/-- C10: the service maps every failure of the store-level SetUserActive
to NotFound, regardless of the kind of failure (missing row or any
driver-level error). -/
theorem C10_set_user_active_notfound :
    ∀ st userID isActive execFault e,
      Storage.SetUserActive st userID isActive execFault = .error e →
      (Service.SetUserActive st userID isActive execFault).2 = .error .notFound := by
  intro st userID isActive execFault e h
  simp [Service.SetUserActive, h]

/-- Witness for C10: the user u1 exists, yet an injected driver failure of
the UPDATE is still reported to the caller as NotFound. -/
theorem C10_set_user_active_notfound_witness :
    (Service.SetUserActive exStC10 "u1" false (some "connection reset")).2
      = .error .notFound :=
  C10_set_user_active_notfound exStC10 "u1" false (some "connection reset")
    (.fault "connection reset") rfl


/-- C3: if every active member of the old reviewer's team is excluded (is
the old reviewer, the author, or an assigned reviewer), ReassignReviewer
returns NoCandidate and performs no mutation: the store is returned
unchanged, so the old reviewer remains assigned. -/
theorem C3_empty_pool_no_candidate :
    ∀ st prID oldUserID pick pr oldUser,
      Storage.GetPR st prID = some pr →
      pr.status ≠ statusMerged →
      oldUserID ∈ pr.assignedReviewers →
      Storage.GetUser st oldUserID = some oldUser →
      (∀ u ∈ st.users, u.isActive = true → u.teamName = oldUser.teamName →
        u.userID = oldUserID ∨ u.userID = pr.authorID ∨
        u.userID ∈ pr.assignedReviewers) →
      Service.ReassignReviewer st prID oldUserID pick
        = (st, .error .noCandidate) := by
  intro st prID oldUserID pick pr oldUser hpr hm hmem hu hpool
  have hempty : Service.reassignCandidates st pr oldUserID oldUser = [] := by
    rw [List.eq_nil_iff_forall_not_mem]
    intro c hc
    unfold Service.reassignCandidates at hc
    rw [List.mem_filter] at hc
    obtain ⟨hcands, hcond⟩ := hc
    rw [mem_getActiveTeamMembers] at hcands
    obtain ⟨hcu, hteam, hact, _⟩ := hcands
    have hx := hpool c hcu hact hteam
    have habc : (c.userID == oldUserID || c.userID == pr.authorID ||
        pr.assignedReviewers.contains c.userID) = true := by
      rcases hx with h1 | h1 | h1
      · simp [h1]
      · simp [h1]
      · simp [h1]
    rw [habc] at hcond
    simp at hcond
  simp [Service.ReassignReviewer, hpr, hm, hmem, hu, hempty]

/-- Witness for C3: on `exStC3` the old reviewer u2 is the sole member of
its team t2, so the pool is empty; the call fails with NoCandidate and the
store (hence the reviewer set [u2] of p1) is unchanged. -/
theorem C3_empty_pool_no_candidate_witness :
    Service.ReassignReviewer exStC3 "p1" "u2" 0 = (exStC3, .error .noCandidate) :=
  C3_empty_pool_no_candidate exStC3 "p1" "u2" 0
    ⟨"p1", "Fix", "u1", statusOpen, ["u2"], none, none⟩
    ⟨"u2", "Bob", "t2", true⟩ rfl (by decide) (by decide) rfl (by decide)

theorem prExists_of_getPR {st : StorageState} {prID : String} {pr : PullRequest}
    (h : Storage.GetPR st prID = some pr) :
    st.prs.any (fun q => q.pullRequestID == prID) = true := by
  unfold Storage.GetPR at h
  have hp := List.find?_some h
  exact List.any_eq_true.mpr ⟨pr, List.mem_of_find?_eq_some h, hp⟩

theorem find?_congr_pred {α : Type} {p q : α → Bool} (h : ∀ a, p a = q a) :
    ∀ l : List α, l.find? p = l.find? q := by
  intro l
  induction l with
  | nil => rfl
  | cons a tl ih => rw [List.find?_cons, List.find?_cons, h a, ih]

theorem mergePR_ok {st : StorageState} {prID : String} {now : Nat}
    {st1 : StorageState} (h : Storage.MergePR st prID now = .ok st1) :
    st1 = { st with prs := st.prs.map (fun q =>
      if q.pullRequestID == prID then
        { q with status := statusMerged, mergedAt := some now } else q) } := by
  unfold Storage.MergePR at h
  split at h
  · exact (Except.ok.inj h).symm
  · exact absurd h (by simp)

theorem getPR_merge_update {st : StorageState} {prID : String} {now : Nat}
    {st1 : StorageState} (h : Storage.MergePR st prID now = .ok st1) :
    Storage.GetPR st1 prID = (Storage.GetPR st prID).map
      (fun q => { q with status := statusMerged, mergedAt := some now }) := by
  rw [mergePR_ok h]
  simp only [Storage.GetPR]
  rw [List.find?_map]
  have hc : ∀ q : PullRequest,
      ((fun q : PullRequest => q.pullRequestID == prID) ∘ (fun q : PullRequest =>
        if q.pullRequestID == prID then
          { q with status := statusMerged, mergedAt := some now } else q)) q
      = (fun q : PullRequest => q.pullRequestID == prID) q := by
    intro q
    by_cases hq : (q.pullRequestID == prID) = true
    · simp [Function.comp, hq]
    · simp [Function.comp, hq]
  rw [find?_congr_pred hc st.prs]
  cases hfind : st.prs.find? (fun q => q.pullRequestID == prID) with
  | none => rfl
  | some q =>
    have hq := List.find?_some hfind
    simp at hq
    simp [hq]

/-- C7: merging is idempotent.  A PR already in status MERGED is returned
unchanged with no error and no write (the store is untouched, so no new
merge timestamp is recorded); moreover any successful merge call followed
by a second merge call at any later time returns exactly the same store
and the same PR (same status and same merge timestamp). -/
theorem C7_merge_idempotent :
    (∀ st prID now pr, Storage.GetPR st prID = some pr →
      pr.status = statusMerged →
      Service.MergePR st prID now = (st, .ok (some pr))) ∧
    (∀ st prID now st1 r, Service.MergePR st prID now = (st1, .ok r) →
      ∀ now2, Service.MergePR st1 prID now2 = (st1, .ok r)) := by
  constructor
  · intro st prID now pr h hm
    simp [Service.MergePR, h, hm]
  · intro st prID now st1 r h now2
    cases hpr : Storage.GetPR st prID with
    | none => simp [Service.MergePR, hpr] at h
    | some pr =>
      cases hs : pr.status == statusMerged with
      | true =>
        simp only [Service.MergePR, hpr, hs, if_true] at h
        obtain ⟨h1, h2⟩ := Prod.mk.inj h
        subst h1
        have hr := (Except.ok.inj h2).symm
        subst hr
        simp [Service.MergePR, hpr, hs]
      | false =>
        have hany : st.prs.any (fun q => q.pullRequestID == prID) = true :=
          prExists_of_getPR hpr
        cases hM : Storage.MergePR st prID now with
        | error e =>
          unfold Storage.MergePR at hM
          rw [if_pos hany] at hM
          exact absurd hM (by simp)
        | ok stM =>
          simp only [Service.MergePR, hpr, hs, Bool.false_eq_true, if_false,
            hM] at h
          obtain ⟨h1, h2⟩ := Prod.mk.inj h
          subst h1
          have hr := (Except.ok.inj h2).symm
          subst hr
          have hup := getPR_merge_update hM
          rw [hpr] at hup
          rw [Option.map_some'] at hup
          simp [Service.MergePR, hup]

/-- Witness for C7: merging the already-merged PR p7 returns its current
row (status MERGED, merge timestamp 3) with no error and no write, and a
second call agrees. -/
theorem C7_merge_idempotent_witness :
    Service.MergePR exStC7 "p7" 9
      = (exStC7, .ok (some ⟨"p7", "Feat", "u1", statusMerged, ["u2"], some 1, some 3⟩)) :=
  C7_merge_idempotent.1 exStC7 "p7" 9
    ⟨"p7", "Feat", "u1", statusMerged, ["u2"], some 1, some 3⟩ rfl rfl

/-- C8: on an existing team all of whose members are inactive,
DeactivateTeam succeeds with empty deactivated, reassigned and failed
lists, leaves the store unchanged, and performs no PR scan: the result is
the same for every possible content of the pull-request tables. -/
theorem C8_no_active_members_shortcircuit :
    ∀ st teamName picks,
      st.teams.contains teamName = true →
      (∀ u ∈ st.users, u.teamName = teamName → u.isActive = false) →
      Service.DeactivateTeam st teamName picks
        = (st, .ok ⟨teamName, [], [], []⟩) ∧
      ∀ prs2, Service.DeactivateTeam { st with prs := prs2 } teamName picks
        = ({ st with prs := prs2 }, .ok ⟨teamName, [], [], []⟩) := by
  intro st teamName picks hteam hinactive
  have main : ∀ prs2 : List PullRequest,
      Service.DeactivateTeam { st with prs := prs2 } teamName picks
        = ({ st with prs := prs2 }, .ok ⟨teamName, [], [], []⟩) := by
    intro prs2
    have hfilter : st.users.filter
        (fun u => u.teamName == teamName && u.isActive) = [] := by
      rw [List.filter_eq_nil_iff]
      intro u hu
      by_cases ht : u.teamName = teamName
      · have := hinactive u hu ht
        simp [this]
      · simp [ht]
    have hmem : teamName ∈ st.teams := by simpa using hteam
    simp [Service.DeactivateTeam, Storage.GetTeam, hteam, hmem,
      Storage.DeactivateTeam, hfilter]
  exact ⟨main st.prs, main⟩

/-- Witness for C8: team t of `exStC8` has a single, inactive member; the
call returns all-empty result lists and does not touch the store. -/
theorem C8_no_active_members_shortcircuit_witness :
    Service.DeactivateTeam exStC8 "t" zeroPicks
      = (exStC8, .ok ⟨"t", [], [], []⟩) :=
  (C8_no_active_members_shortcircuit exStC8 "t" zeroPicks rfl (by decide)).1

theorem filterMap_getElem_eq_map (users : List User) :
    ∀ l : List Nat, (∀ i ∈ l, i < users.length) →
      l.filterMap (fun i => (users[i]?).map User.userID)
        = l.map (fun i => (users.map User.userID).getD i "") := by
  intro l
  induction l with
  | nil => intro _; rfl
  | cons i tl ih =>
    intro hb
    have hi : i < users.length := hb i (List.mem_cons_self i tl)
    rw [List.filterMap_cons, List.map_cons, List.getElem?_eq_getElem hi]
    simp only [Option.map_some']
    rw [ih (fun j hj => hb j (List.mem_cons_of_mem i hj))]
    have hhead : (users.map User.userID).getD i "" = users[i].userID := by
      rw [List.getD_eq_getElem _ _ (by simpa using hi)]
      simp
    rw [hhead]

theorem selectRandomReviewers_spec (users : List User) (maxCount : Nat)
    (perm : List Nat) (hperm : perm.Perm (List.range users.length))
    (hids : (users.map User.userID).Nodup) :
    (Service.selectRandomReviewers users maxCount perm).length
        = min maxCount users.length ∧
    (Service.selectRandomReviewers users maxCount perm).Nodup ∧
    ∀ r ∈ Service.selectRandomReviewers users maxCount perm,
      ∃ u ∈ users, u.userID = r := by
  by_cases hemp : users.isEmpty
  · have he : users = [] := List.isEmpty_iff.mp hemp
    subst he
    simp [Service.selectRandomReviewers]
  · have hsel : Service.selectRandomReviewers users maxCount perm
        = (perm.take (min maxCount users.length)).filterMap
            (fun i => (users[i]?).map User.userID) := by
      simp [Service.selectRandomReviewers, hemp]
    have hbound : ∀ i ∈ perm.take (min maxCount users.length),
        i < users.length := by
      intro i hi
      have : i ∈ perm := List.mem_of_mem_take hi
      have := hperm.mem_iff.mp this
      exact List.mem_range.mp this
    have heq := filterMap_getElem_eq_map users
      (perm.take (min maxCount users.length)) hbound
    have hlen : (perm.take (min maxCount users.length)).length
        = min maxCount users.length := by
      rw [List.length_take, hperm.length_eq, List.length_range]
      exact Nat.min_eq_left (Nat.min_le_right _ _)
    have htnodup : (perm.take (min maxCount users.length)).Nodup :=
      (List.take_sublist _ _).nodup
        ((hperm.nodup_iff).mpr (List.nodup_range _))
    refine ⟨?_, ?_, ?_⟩
    · rw [hsel, heq, List.length_map, hlen]
    · rw [hsel, heq]
      refine List.Nodup.map_on ?_ htnodup
      intro i hi j hj hf
      have hi2 : i < users.length := hbound i hi
      have hj2 : j < users.length := hbound j hj
      rw [List.getD_eq_getElem _ _ (by simpa using hi2),
        List.getD_eq_getElem _ _ (by simpa using hj2)] at hf
      exact (hids.getElem_inj_iff).mp hf
    · intro r hr
      rw [hsel, heq] at hr
      obtain ⟨i, hi, hrf⟩ := List.mem_map.mp hr
      have hi2 : i < users.length := hbound i hi
      refine ⟨users[i], List.getElem_mem hi2, ?_⟩
      rw [← hrf, List.getD_eq_getElem _ _ (by simpa using hi2)]
      simp

theorem getActiveTeamMembers_ids_nodup {st : StorageState} {tn ex : String}
    (h : usersNodup st) :
    ((Storage.GetActiveTeamMembers st tn ex).map User.userID).Nodup := by
  have hperm : (Storage.GetActiveTeamMembers st tn ex).Perm
      (st.users.filter (fun u =>
        u.teamName == tn && u.isActive && u.userID != ex)) :=
    perm_sortByUserID _
  have hsub : ((st.users.filter (fun u =>
      u.teamName == tn && u.isActive && u.userID != ex)).map User.userID).Sublist
      (st.users.map User.userID) :=
    List.Sublist.map _ (List.filter_sublist st.users)
  exact ((hperm.map User.userID).nodup_iff).mpr (hsub.nodup h)

/-- C6: with a fresh PR id and an existing author, CreatePR succeeds and
assigns exactly `min N 2` reviewers, where `N` is the number of active
members of the author's team other than the author; the reviewers are
pairwise distinct, drawn from that pool, and none equals the author (the
`N = 0` case gives an empty reviewer set and still succeeds). -/
theorem C6_create_pr_reviewer_count :
    ∀ st prID prName authorID perm now author,
      usersNodup st →
      Storage.PRExists st prID = false →
      Storage.GetUser st authorID = some author →
      perm.Perm (List.range
        (Storage.GetActiveTeamMembers st author.teamName authorID).length) →
      ∃ st1 pr,
        Service.CreatePR st prID prName authorID perm now
          = (st1, .ok (some pr)) ∧
        pr.assignedReviewers.length
          = min (Storage.GetActiveTeamMembers st author.teamName authorID).length 2 ∧
        pr.assignedReviewers.Nodup ∧
        ∀ r ∈ pr.assignedReviewers, r ≠ authorID ∧
          ∃ u ∈ Storage.GetActiveTeamMembers st author.teamName authorID,
            u.userID = r := by
  intro st prID prName authorID perm now author hnd hex hau hperm
  have hids := @getActiveTeamMembers_ids_nodup st author.teamName authorID hnd
  have hsel := selectRandomReviewers_spec
    (Storage.GetActiveTeamMembers st author.teamName authorID) 2 perm hperm hids
  have hany : st.prs.any (fun q => q.pullRequestID == prID) = false := hex
  have hfind : st.prs.find? (fun q => q.pullRequestID == prID) = none := by
    rw [List.find?_eq_none]
    intro q hq
    exact List.any_eq_false.mp hany q hq
  refine ⟨⟨st.teams, st.users, st.prs ++ [⟨prID, prName, authorID, statusOpen,
      Service.selectRandomReviewers
        (Storage.GetActiveTeamMembers st author.teamName authorID) 2 perm,
      some now, none⟩]⟩,
    ⟨prID, prName, authorID, statusOpen,
      Service.selectRandomReviewers
        (Storage.GetActiveTeamMembers st author.teamName authorID) 2 perm,
      some now, none⟩, ?_, ?_, hsel.2.1, ?_⟩
  · simp only [Service.CreatePR, hex, Bool.false_eq_true, if_false, hau,
      Storage.CreatePR, hany, if_pos hsel.2.1, Storage.GetPR]
    rw [List.find?_append, hfind]
    simp
  · rw [hsel.1, Nat.min_comm]
  · intro r hr
    obtain ⟨u, hu, hur⟩ := hsel.2.2 r hr
    refine ⟨?_, u, hu, hur⟩
    have := (mem_getActiveTeamMembers.mp hu).2.2.2
    rw [← hur]
    exact this

/-- Witness for C6: author u1 of team t has two active teammates u2, u3;
with the permutation [1, 0] the created PR gets exactly the two distinct
reviewers u3 and u2, neither equal to u1. -/
theorem C6_create_pr_reviewer_count_witness :
    ∃ st1 pr,
      Service.CreatePR exStC6 "p1" "Fix" "u1" [1, 0] 7 = (st1, .ok (some pr)) ∧
      pr.assignedReviewers.length
        = min (Storage.GetActiveTeamMembers exStC6 "t" "u1").length 2 ∧
      pr.assignedReviewers.Nodup ∧
      ∀ r ∈ pr.assignedReviewers, r ≠ "u1" ∧
        ∃ u ∈ Storage.GetActiveTeamMembers exStC6 "t" "u1", u.userID = r :=
  C6_create_pr_reviewer_count exStC6 "p1" "Fix" "u1" [1, 0] 7
    ⟨"u1", "Alice", "t", true⟩ (by unfold usersNodup; decide) rfl rfl (by decide)

theorem flip_preserves_userID (teamName : String) (u : User) :
    ((if u.teamName == teamName && u.isActive then { u with isActive := false }
      else u) : User).userID = u.userID := by
  by_cases h : (u.teamName == teamName && u.isActive) = true
  · rw [if_pos h]
  · rw [if_neg h]

theorem getUser_map_flip (st : StorageState) (teamName rid : String) :
    Storage.GetUser { st with users := st.users.map (fun u =>
        if u.teamName == teamName && u.isActive then { u with isActive := false }
        else u) } rid
    = (st.users.find? (fun u => u.userID == rid)).map (fun u =>
        if u.teamName == teamName && u.isActive then { u with isActive := false }
        else u) := by
  have hpred : ∀ a : User,
      ((fun v : User => v.userID == rid) ∘ (fun u : User =>
        if u.teamName == teamName && u.isActive then { u with isActive := false }
        else u)) a
      = (fun v : User => v.userID == rid) a := by
    intro a
    simp only [Function.comp]
    exact congrArg (fun s => s == rid) (flip_preserves_userID teamName a)
  show (st.users.map (fun u =>
      if u.teamName == teamName && u.isActive then { u with isActive := false }
      else u)).find? (fun v => v.userID == rid) = _
  rw [List.find?_map, find?_congr_pred hpred st.users]

theorem attemptOne_fails_after_deactivate (st : StorageState) (teamName : String)
    (hnd : usersNodup st) :
    ∀ pr rid picks k,
      Service.attemptOne
        { st with users := st.users.map (fun u =>
            if u.teamName == teamName && u.isActive then { u with isActive := false }
            else u) }
        ((st.users.filter (fun u => u.teamName == teamName && u.isActive)).map
          User.userID)
        pr rid picks k
      = ({ st with users := st.users.map (fun u =>
            if u.teamName == teamName && u.isActive then { u with isActive := false }
            else u) }, k, false) := by
  intro pr rid picks k
  by_cases hin : (((st.users.filter (fun u =>
      u.teamName == teamName && u.isActive)).map User.userID).contains rid) = true
  · have hfind := getUser_map_flip st teamName rid
    cases hf : st.users.find? (fun u => u.userID == rid) with
    | none =>
      rw [hf, Option.map_none'] at hfind
      simp only [Service.attemptOne, hin, if_true, hfind]
    | some u0 =>
      rw [hf, Option.map_some'] at hfind
      have hu0mem : u0 ∈ st.users := List.mem_of_find?_eq_some hf
      have hu0id : u0.userID = rid := by
        have := List.find?_some hf
        simpa using this
      have hmemr : rid ∈ (st.users.filter (fun u =>
          u.teamName == teamName && u.isActive)).map User.userID := by
        simpa using hin
      obtain ⟨uf, hufmem, hufid⟩ := List.mem_map.mp hmemr
      have hufl := List.mem_filter.mp hufmem
      have hufteam : uf.teamName = teamName := by
        have h2 := hufl.2
        simp only [Bool.and_eq_true, beq_iff_eq] at h2
        exact h2.1
      have hueq : u0 = uf := by
        apply List.inj_on_of_nodup_map hnd hu0mem (List.mem_of_mem_filter hufmem)
        rw [hu0id, hufid]
      have hteam0 : u0.teamName = teamName := hueq ▸ hufteam
      have hcand : Storage.GetActiveTeamMembers
          { st with users := st.users.map (fun u =>
              if u.teamName == teamName && u.isActive then { u with isActive := false }
              else u) } teamName "" = [] := by
        unfold Storage.GetActiveTeamMembers
        have hfil : (st.users.map (fun u =>
            if u.teamName == teamName && u.isActive then { u with isActive := false }
            else u)).filter (fun u =>
              u.teamName == teamName && u.isActive && u.userID != "") = [] := by
          rw [List.filter_eq_nil_iff]
          intro v hv
          obtain ⟨w, hw, hwv⟩ := List.mem_map.mp hv
          subst hwv
          by_cases hwc : (w.teamName == teamName && w.isActive) = true
          · rw [if_pos hwc]
            simp
          · rw [if_neg hwc]
            intro hcl
            simp only [Bool.and_eq_true] at hcl hwc
            exact hwc ⟨hcl.1.1, hcl.1.2⟩
        rw [hfil]
        rfl
      have hteamflip : ((if u0.teamName == teamName && u0.isActive then
          { u0 with isActive := false } else u0) : User).teamName = teamName := by
        by_cases hc : (u0.teamName == teamName && u0.isActive) = true
        · rw [if_pos hc]
          exact hteam0
        · rw [if_neg hc]
          exact hteam0
      simp only [Service.attemptOne, hin, if_true, hfind, hteamflip, hcand]
      simp
  · simp only [Service.attemptOne, hin, Bool.false_eq_true, if_false]

theorem attemptReviewers_all_fail {st1 : StorageState} {dact : List String}
    {picks : Nat → Nat}
    (hfail : ∀ pr rid picks2 k, picks2 = picks →
      Service.attemptOne st1 dact pr rid picks2 k = (st1, k, false)) :
    ∀ pr rs k, Service.attemptReviewers st1 dact pr rs picks k
      = (st1, k, false) := by
  intro pr rs
  induction rs with
  | nil => intro k; rfl
  | cons r tl ih =>
    intro k
    simp only [Service.attemptReviewers, hfail pr r picks k rfl]
    exact ih k

theorem deactivateLoop_all_fail {st1 : StorageState} {dact : List String}
    {picks : Nat → Nat}
    (hfail : ∀ pr rs k, Service.attemptReviewers st1 dact pr rs picks k
      = (st1, k, false)) :
    ∀ prIDs k, ∃ fa,
      Service.deactivateLoop dact picks st1 k prIDs = (st1, k, [], fa) := by
  intro prIDs
  induction prIDs with
  | nil => intro k; exact ⟨[], rfl⟩
  | cons p tl ih =>
    intro k
    obtain ⟨fa, hfa⟩ := ih k
    cases hp : Storage.GetPR st1 p with
    | none =>
      refine ⟨p :: fa, ?_⟩
      simp only [Service.deactivateLoop, hp, hfa]
    | some pr =>
      by_cases hd : Service.hasDeactivatedReviewer dact pr = true
      · refine ⟨fa, ?_⟩
        simp only [Service.deactivateLoop, hp, hd, if_true,
          hfail pr pr.assignedReviewers k, hfa]
        simp
      · refine ⟨fa, ?_⟩
        simp only [Service.deactivateLoop, hp, hd, Bool.false_eq_true, if_false,
          hfa]

/-- C9: in a sequential execution, DeactivateTeam never manages to reassign
anything: every deactivated reviewer belongs to the team just flipped
inactive, so its replacement pool is empty and the returned
`reassigned_prs` list is always empty. -/
theorem C9_deactivate_reassigned_empty :
    ∀ st teamName picks st2 res,
      usersNodup st →
      Service.DeactivateTeam st teamName picks = (st2, .ok res) →
      res.reassignedPRs = [] := by
  intro st teamName picks st2 res hnd h
  unfold Service.DeactivateTeam at h
  cases hteam : Storage.GetTeam st teamName with
  | none =>
    rw [hteam] at h
    simp at h
  | some tm =>
    rw [hteam] at h
    unfold Storage.DeactivateTeam at h
    by_cases hie : ((st.users.filter (fun u =>
        u.teamName == teamName && u.isActive)).map User.userID).isEmpty = true
    · rw [if_pos hie] at h
      simp only [hie, if_true] at h
      obtain ⟨-, h2⟩ := Prod.mk.inj h
      have := Except.ok.inj h2
      rw [← this]
    · rw [if_neg hie] at h
      simp only [hie, Bool.false_eq_true, if_false] at h
      have hfail1 := attemptOne_fails_after_deactivate st teamName hnd
      have hfail2 := @attemptReviewers_all_fail
        { st with users := st.users.map (fun u =>
            if u.teamName == teamName && u.isActive then { u with isActive := false }
            else u) }
        ((st.users.filter (fun u =>
            u.teamName == teamName && u.isActive)).map User.userID)
        picks
        (fun pr rid picks2 k hp => by rw [hp]; exact hfail1 pr rid picks k)
      obtain ⟨fa, hloop⟩ := deactivateLoop_all_fail hfail2
        (Storage.GetOpenPRsForReviewers
          { st with users := st.users.map (fun u =>
              if u.teamName == teamName && u.isActive then { u with isActive := false }
              else u) }
          ((st.users.filter (fun u =>
              u.teamName == teamName && u.isActive)).map User.userID)) 0
      rw [hloop] at h
      obtain ⟨-, h2⟩ := Prod.mk.inj h
      have := Except.ok.inj h2
      rw [← this]

/-- Witness for C9: on the spec scenario store, DeactivateTeam flips u1,
u2, u3 inactive, scans pr-1001, fails to replace either reviewer (their
team has no active member left) and returns an empty reassigned list. -/
theorem C9_deactivate_reassigned_empty_witness :
    Service.DeactivateTeam exSt1 "backend" zeroPicks
      = (exSt1Deact, .ok ⟨"backend", ["u1", "u2", "u3"], [], []⟩) ∧
    DeactivateResult.reassignedPRs ⟨"backend", ["u1", "u2", "u3"], [], []⟩ = [] :=
  ⟨rfl, C9_deactivate_reassigned_empty exSt1 "backend" zeroPicks exSt1Deact
    ⟨"backend", ["u1", "u2", "u3"], [], []⟩ (by unfold usersNodup; decide) rfl⟩

/-- Counterexample for C5: in `exSt5` the only user the spec's three
exclusions leave in the pool is the active empty-id user of team t, so the
pool the claim describes is nonempty; the code's query passes the empty
string as the exclude argument, drops that user, computes an empty pool
and fails with NoCandidate instead of choosing from the claimed pool. -/
theorem C5_counterexample :
    specCandidatePool exSt5 exPr5 "u2" exOld5 = [⟨"", "Eve", "t", true⟩] ∧
    Service.reassignCandidates exSt5 exPr5 "u2" exOld5 = [] ∧
    Storage.GetPR exSt5 "p1" = some exPr5 ∧
    Storage.GetUser exSt5 "u2" = some exOld5 ∧
    exPr5.status = statusOpen ∧
    (Service.ReassignReviewer exSt5 "p1" "u2" 0).2 = .error .noCandidate :=
  ⟨rfl, rfl, rfl, rfl, rfl, rfl⟩

theorem mem_reassignCandidates_iff {st : StorageState} {pr : PullRequest}
    {oldUserID : String} {oldUser u : User} :
    u ∈ Service.reassignCandidates st pr oldUserID oldUser ↔
      (u ∈ st.users ∧ u.isActive = true ∧ u.teamName = oldUser.teamName ∧
       u.userID ≠ "" ∧ u.userID ≠ oldUserID ∧ u.userID ≠ pr.authorID ∧
       u.userID ∉ pr.assignedReviewers) := by
  unfold Service.reassignCandidates
  rw [List.mem_filter, mem_getActiveTeamMembers]
  simp only [Bool.not_eq_eq_eq_not, Bool.not_true, Bool.or_eq_false_iff,
    beq_eq_false_iff_ne, ne_eq]
  constructor
  · rintro ⟨⟨hmem, hteam, hact, hne⟩, ⟨hold, hauthor⟩, hctn⟩
    refine ⟨hmem, hact, hteam, hne, hold, hauthor, ?_⟩
    intro hmem2
    have hctrue : pr.assignedReviewers.contains u.userID = true :=
      List.elem_eq_true_of_mem hmem2
    rw [hctrue] at hctn
    exact absurd hctn (by simp)
  · rintro ⟨hmem, hact, hteam, hne, hold, hauthor, hctn⟩
    refine ⟨⟨hmem, hteam, hact, hne⟩, ⟨hold, hauthor⟩, ?_⟩
    by_cases hc : pr.assignedReviewers.contains u.userID = true
    · exact absurd (by simpa using hc) hctn
    · simpa using hc

/-- C5 (amended): the pool ReassignReviewer draws from is exactly the set
of active members of the old reviewer's team excluding the old reviewer,
the PR's author, every currently assigned reviewer, and additionally any
user whose id is the empty string (an artifact of the query's exclude
argument being passed as the empty string); whenever the call succeeds the
chosen replacement belongs to that pool, so it is active at selection
time, belongs to the old reviewer's team, and is never the old reviewer,
the author, or an already assigned reviewer. -/
theorem C5_candidate_pool_amended :
    (∀ st pr oldUserID oldUser u,
      u ∈ Service.reassignCandidates st pr oldUserID oldUser ↔
        (u ∈ st.users ∧ u.isActive = true ∧ u.teamName = oldUser.teamName ∧
         u.userID ≠ "" ∧ u.userID ≠ oldUserID ∧ u.userID ≠ pr.authorID ∧
         u.userID ∉ pr.assignedReviewers)) ∧
    (∀ st prID oldUserID pick st1 prOpt newID,
      Service.ReassignReviewer st prID oldUserID pick
        = (st1, .ok (prOpt, newID)) →
      ∃ pr oldUser u, Storage.GetPR st prID = some pr ∧
        Storage.GetUser st oldUserID = some oldUser ∧
        u ∈ Service.reassignCandidates st pr oldUserID oldUser ∧
        u.userID = newID ∧ u.isActive = true ∧ u.teamName = oldUser.teamName ∧
        newID ≠ oldUserID ∧ newID ≠ pr.authorID ∧
        newID ∉ pr.assignedReviewers) := by
  constructor
  · intro st pr oldUserID oldUser u
    exact mem_reassignCandidates_iff
  · intro st prID oldUserID pick st1 prOpt newID h
    cases hpr : Storage.GetPR st prID with
    | none => simp [Service.ReassignReviewer, hpr] at h
    | some pr =>
      cases hs : pr.status == statusMerged with
      | true => simp [Service.ReassignReviewer, hpr, hs] at h
      | false =>
        by_cases hctn : oldUserID ∈ pr.assignedReviewers
        case neg => simp [Service.ReassignReviewer, hpr, hs, hctn] at h
        case pos =>
        cases hgu : Storage.GetUser st oldUserID with
        | none => simp [Service.ReassignReviewer, hpr, hs, hctn, hgu] at h
        | some oldUser =>
          by_cases hie : Service.reassignCandidates st pr oldUserID oldUser = []
          case pos =>
            simp [Service.ReassignReviewer, hpr, hs, hctn, hgu, hie] at h
          case neg =>
          have hpos : 0 < (Service.reassignCandidates st pr oldUserID
              oldUser).length := List.length_pos.mpr hie
          have hlt : pick % (Service.reassignCandidates st pr oldUserID
              oldUser).length
              < (Service.reassignCandidates st pr oldUserID oldUser).length :=
            Nat.mod_lt _ hpos
          have hcmem : (Service.reassignCandidates st pr oldUserID
              oldUser)[pick % (Service.reassignCandidates st pr oldUserID
                oldUser).length]
              ∈ Service.reassignCandidates st pr oldUserID oldUser :=
            List.getElem_mem hlt
          have hprops := mem_reassignCandidates_iff.mp hcmem
          have hget2 : (Service.reassignCandidates st pr oldUserID
              oldUser).getD (pick % (Service.reassignCandidates st pr oldUserID
                oldUser).length) defaultUser
              = (Service.reassignCandidates st pr oldUserID
                  oldUser)[pick % (Service.reassignCandidates st pr oldUserID
                    oldUser).length] :=
            List.getD_eq_getElem _ _ hlt
          cases hsr : Storage.ReassignReviewer st prID oldUserID
              ((Service.reassignCandidates st pr oldUserID
                oldUser)[pick % (Service.reassignCandidates st pr
                  oldUserID oldUser).length]).userID with
          | error e =>
            have hget3 : ((Service.reassignCandidates st pr oldUserID
                oldUser)[pick % (Service.reassignCandidates st pr oldUserID
                  oldUser).length]?).getD defaultUser
                = (Service.reassignCandidates st pr oldUserID
                    oldUser)[pick % (Service.reassignCandidates st pr oldUserID
                      oldUser).length] := by
              rw [List.getElem?_eq_getElem hlt]
              rfl
            simp [Service.ReassignReviewer, hpr, hs, hctn, hgu, hie,
              hget3, hsr] at h
          | ok stNew =>
            have hctb : pr.assignedReviewers.contains oldUserID = true :=
              List.elem_eq_true_of_mem hctn
            simp only [Service.ReassignReviewer, hpr, hs, Bool.false_eq_true,
              if_false, hctb, Bool.not_true, hgu] at h
            rw [if_neg (by simpa using hie)] at h
            simp only [hget2, hsr] at h
            obtain ⟨-, h2⟩ := Prod.mk.inj h
            have h3 := Except.ok.inj h2
            have hnew : newID = ((Service.reassignCandidates st pr
                oldUserID oldUser)[pick % (Service.reassignCandidates st
                  pr oldUserID oldUser).length]).userID :=
              (congrArg Prod.snd h3).symm
            refine ⟨pr, oldUser, _, rfl, rfl, hcmem, hnew.symm, hprops.2.1,
              hprops.2.2.1, ?_, ?_, ?_⟩
            · rw [hnew]
              exact hprops.2.2.2.2.1
            · rw [hnew]
              exact hprops.2.2.2.2.2.1
            · rw [hnew]
              exact hprops.2.2.2.2.2.2

/-- Witness for C5 (amended): on `exStC5w` reassigning u2 away from p1
succeeds and chooses u3, the one active teammate that is neither the old
reviewer, the author, nor already assigned. -/
theorem C5_candidate_pool_amended_witness :
    ∃ pr oldUser u, Storage.GetPR exStC5w "p1" = some pr ∧
      Storage.GetUser exStC5w "u2" = some oldUser ∧
      u ∈ Service.reassignCandidates exStC5w pr "u2" oldUser ∧
      u.userID = "u3" ∧ u.isActive = true ∧ u.teamName = oldUser.teamName ∧
      "u3" ≠ "u2" ∧ "u3" ≠ pr.authorID ∧ "u3" ∉ pr.assignedReviewers :=
  C5_candidate_pool_amended.2 exStC5w "p1" "u2" 0 exStC5wAfter
    (some ⟨"p1", "Fix", "u1", statusOpen, ["u3"], none, none⟩) "u3" rfl

theorem attemptOne_false_state {st : StorageState} {dact : List String}
    {pr : PullRequest} {r : String} {picks : Nat → Nat} {k : Nat}
    {st1 : StorageState} {k1 : Nat}
    (h : Service.attemptOne st dact pr r picks k = (st1, k1, false)) :
    st1 = st := by
  unfold Service.attemptOne at h
  split at h
  · split at h
    · exact (Prod.mk.inj h).1.symm
    · dsimp only at h
      split at h
      · exact (Prod.mk.inj h).1.symm
      · split at h
        · simp at h
        · exact (Prod.mk.inj h).1.symm
  · exact (Prod.mk.inj h).1.symm

theorem attemptReviewers_false_state {dact : List String} {pr : PullRequest}
    {picks : Nat → Nat} :
    ∀ rs (st : StorageState) (k : Nat) st1 k1,
      Service.attemptReviewers st dact pr rs picks k = (st1, k1, false) →
      st1 = st := by
  intro rs
  induction rs with
  | nil =>
    intro st k st1 k1 h
    exact (Prod.mk.inj h).1.symm
  | cons r tl ih =>
    intro st k st1 k1 h
    rcases hA : Service.attemptOne st dact pr r picks k with ⟨stA, kA, okA⟩
    cases okA with
    | true =>
      simp only [Service.attemptReviewers, hA] at h
      simp at h
    | false =>
      simp only [Service.attemptReviewers, hA] at h
      have hstA : stA = st := attemptOne_false_state hA
      rw [hstA] at h
      exact ih st kA st1 k1 h

theorem attemptReviewers_success_decomp {dact : List String}
    {pr : PullRequest} {picks : Nat → Nat} :
    ∀ rs (st : StorageState) (k : Nat) st1 k1,
      Service.attemptReviewers st dact pr rs picks k = (st1, k1, true) →
      ∃ rs₁ r rs₂ k₀, rs = rs₁ ++ r :: rs₂ ∧
        Service.attemptReviewers st dact pr rs₁ picks k = (st, k₀, false) ∧
        Service.attemptOne st dact pr r picks k₀ = (st1, k1, true) ∧
        ∀ rs₂a, Service.attemptReviewers st dact pr (rs₁ ++ r :: rs₂a) picks k
          = (st1, k1, true) := by
  intro rs
  induction rs with
  | nil =>
    intro st k st1 k1 h
    simp only [Service.attemptReviewers] at h
    simp at h
  | cons r tl ih =>
    intro st k st1 k1 h
    rcases hA : Service.attemptOne st dact pr r picks k with ⟨stA, kA, okA⟩
    cases okA with
    | true =>
      simp only [Service.attemptReviewers, hA] at h
      refine ⟨[], r, tl, k, rfl, rfl, ?_, ?_⟩
      · rw [hA]
        exact h
      · intro rs₂a
        show Service.attemptReviewers st dact pr (r :: rs₂a) picks k
          = (st1, k1, true)
        simp only [Service.attemptReviewers, hA]
        exact h
    | false =>
      simp only [Service.attemptReviewers, hA] at h
      have hstA : stA = st := attemptOne_false_state hA
      rw [hstA] at h
      obtain ⟨rs₁, r2, rs₂, k₀, hrs, hfail, hone, hall⟩ := ih st kA st1 k1 h
      refine ⟨r :: rs₁, r2, rs₂, k₀, by rw [hrs, List.cons_append], ?_, hone,
        ?_⟩
      · simp only [Service.attemptReviewers, hA, hstA]
        exact hfail
      · intro rs₂a
        rw [List.cons_append]
        simp only [Service.attemptReviewers, hA, hstA]
        exact hall rs₂a

theorem deactivateLoop_mem {dact : List String} {picks : Nat → Nat} :
    ∀ prIDs (st : StorageState) (k : Nat) x,
      (x ∈ (Service.deactivateLoop dact picks st k prIDs).2.2.1 → x ∈ prIDs) ∧
      (x ∈ (Service.deactivateLoop dact picks st k prIDs).2.2.2 → x ∈ prIDs) := by
  intro prIDs
  induction prIDs with
  | nil =>
    intro st k x
    constructor <;> intro hx <;> simp [Service.deactivateLoop] at hx
  | cons p tl ih =>
    intro st k x
    cases hp : Storage.GetPR st p with
    | none =>
      rcases hrec : Service.deactivateLoop dact picks st k tl with
        ⟨st2, k2, re, fa⟩
      have ih1 := (ih st k x).1
      have ih2 := (ih st k x).2
      rw [hrec] at ih1 ih2
      constructor <;> intro hx <;>
        simp only [Service.deactivateLoop, hp, hrec] at hx
      · exact List.mem_cons_of_mem p (ih1 hx)
      · rcases List.mem_cons.mp hx with hx1 | hx2
        · exact hx1 ▸ List.mem_cons_self p tl
        · exact List.mem_cons_of_mem p (ih2 hx2)
    | some pr =>
      by_cases hd : Service.hasDeactivatedReviewer dact pr = true
      · rcases hatt : Service.attemptReviewers st dact pr pr.assignedReviewers
            picks k with ⟨stA, kA, okA⟩
        rcases hrec : Service.deactivateLoop dact picks stA kA tl with
          ⟨st2, k2, re, fa⟩
        have ih1 := (ih stA kA x).1
        have ih2 := (ih stA kA x).2
        rw [hrec] at ih1 ih2
        cases okA with
        | true =>
          constructor <;> intro hx <;>
            simp only [Service.deactivateLoop, hp, hd, if_true, hatt, hrec,
              if_true] at hx
          · rcases List.mem_cons.mp hx with hx1 | hx2
            · exact hx1 ▸ List.mem_cons_self p tl
            · exact List.mem_cons_of_mem p (ih1 hx2)
          · exact List.mem_cons_of_mem p (ih2 hx)
        | false =>
          constructor <;> intro hx <;>
            simp only [Service.deactivateLoop, hp, hd, if_true, hatt, hrec,
              Bool.false_eq_true, if_false] at hx
          · exact List.mem_cons_of_mem p (ih1 hx)
          · exact List.mem_cons_of_mem p (ih2 hx)
      · have ih1 := (ih st k x).1
        have ih2 := (ih st k x).2
        constructor <;> intro hx <;>
          simp only [Service.deactivateLoop, hp, hd, Bool.false_eq_true,
            if_false] at hx
        · exact List.mem_cons_of_mem p (ih1 hx)
        · exact List.mem_cons_of_mem p (ih2 hx)

/-- Counterexample for C1 on the spec's own scenario store: every reviewer
of the open PR pr-1001 is deactivated and none can be replaced, yet
DeactivateTeam returns with pr-1001 in NEITHER result list —
failed_reassignments comes back empty, contradicting the claim that a PR
with no replaceable deactivated reviewer is recorded under
failed_reassignments. -/
theorem C1_counterexample :
    (Service.DeactivateTeam exSt1 "backend" zeroPicks).2
      = .ok ⟨"backend", ["u1", "u2", "u3"], [], []⟩ ∧
    "pr-1001" ∉ DeactivateResult.failedReassignments
      ⟨"backend", ["u1", "u2", "u3"], [], []⟩ ∧
    "pr-1001" ∉ DeactivateResult.reassignedPRs
      ⟨"backend", ["u1", "u2", "u3"], [], []⟩ ∧
    Storage.GetPR exSt1 "pr-1001" = some exPr1 ∧
    Service.hasDeactivatedReviewer ["u1", "u2", "u3"] exPr1 = true :=
  ⟨rfl, by simp, by simp, rfl, rfl⟩

/-- C1 (amended): in the DeactivateTeam PR loop the reviewers of each PR
snapshot are attempted in their current assignment order; a reviewer run
that ends without a success leaves the store untouched; a successful run
decomposes into failing attempts on a prefix followed by one successful
attempt, after which no further reviewer is evaluated (the outcome is
identical for every suffix of remaining reviewers); a PR whose run
succeeds is recorded under reassigned_prs; and a PR whose run fails is
recorded in NEITHER reassigned_prs nor failed_reassignments (the latter
only records PRs whose re-read from the store failed). -/
theorem C1_deactivate_first_success_amended :
    (∀ (dact : List String) (pr : PullRequest) (picks : Nat → Nat) rs
        (st : StorageState) (k : Nat) st1 k1,
      Service.attemptReviewers st dact pr rs picks k = (st1, k1, false) →
      st1 = st) ∧
    (∀ (dact : List String) (pr : PullRequest) (picks : Nat → Nat) rs
        (st : StorageState) (k : Nat) st1 k1,
      Service.attemptReviewers st dact pr rs picks k = (st1, k1, true) →
      ∃ rs₁ r rs₂ k₀, rs = rs₁ ++ r :: rs₂ ∧
        Service.attemptReviewers st dact pr rs₁ picks k = (st, k₀, false) ∧
        Service.attemptOne st dact pr r picks k₀ = (st1, k1, true) ∧
        ∀ rs₂a, Service.attemptReviewers st dact pr (rs₁ ++ r :: rs₂a) picks k
          = (st1, k1, true)) ∧
    (∀ (dact : List String) (picks : Nat → Nat) (st : StorageState) (k : Nat)
        prID rest pr,
      Storage.GetPR st prID = some pr →
      Service.hasDeactivatedReviewer dact pr = true →
      (Service.attemptReviewers st dact pr pr.assignedReviewers picks k).2.2
        = false →
      prID ∉ rest →
      prID ∉ (Service.deactivateLoop dact picks st k (prID :: rest)).2.2.1 ∧
      prID ∉ (Service.deactivateLoop dact picks st k (prID :: rest)).2.2.2) ∧
    (∀ (dact : List String) (picks : Nat → Nat) (st : StorageState) (k : Nat)
        prID rest pr,
      Storage.GetPR st prID = some pr →
      Service.hasDeactivatedReviewer dact pr = true →
      (Service.attemptReviewers st dact pr pr.assignedReviewers picks k).2.2
        = true →
      prID ∈ (Service.deactivateLoop dact picks st k (prID :: rest)).2.2.1) := by
  refine ⟨?_, ?_, ?_, ?_⟩
  · intro dact pr picks rs st k st1 k1 h
    exact attemptReviewers_false_state rs st k st1 k1 h
  · intro dact pr picks rs st k st1 k1 h
    exact attemptReviewers_success_decomp rs st k st1 k1 h
  · intro dact picks st k prID rest pr hp hd hflag hnotin
    rcases hatt : Service.attemptReviewers st dact pr pr.assignedReviewers
        picks k with ⟨stA, kA, okA⟩
    rw [hatt] at hflag
    have hok : okA = false := hflag
    rw [hok] at hatt
    rcases hrec : Service.deactivateLoop dact picks stA kA rest with
      ⟨st2, k2, re, fa⟩
    have hm1 := (@deactivateLoop_mem dact picks rest stA kA prID).1
    have hm2 := (@deactivateLoop_mem dact picks rest stA kA prID).2
    rw [hrec] at hm1 hm2
    constructor <;> intro hx <;>
      simp only [Service.deactivateLoop, hp, hd, if_true, hatt, hrec,
        Bool.false_eq_true, if_false] at hx
    · exact hnotin (hm1 hx)
    · exact hnotin (hm2 hx)
  · intro dact picks st k prID rest pr hp hd hflag
    rcases hatt : Service.attemptReviewers st dact pr pr.assignedReviewers
        picks k with ⟨stA, kA, okA⟩
    rw [hatt] at hflag
    have hok : okA = true := hflag
    rw [hok] at hatt
    rcases hrec : Service.deactivateLoop dact picks stA kA rest with
      ⟨st2, k2, re, fa⟩
    simp only [Service.deactivateLoop, hp, hd, if_true, hatt, hrec]
    exact List.mem_cons_self prID re

/-- Witness for C1 (amended): on the post-deactivation store both
reviewers of pr-1001 fail to be replaced, and pr-1001 ends up in neither
the reassigned nor the failed list of the loop. -/
theorem C1_deactivate_first_success_amended_witness :
    "pr-1001" ∉ (Service.deactivateLoop ["u1", "u2", "u3"] zeroPicks exStLoop 0
      ["pr-1001"]).2.2.1 ∧
    "pr-1001" ∉ (Service.deactivateLoop ["u1", "u2", "u3"] zeroPicks exStLoop 0
      ["pr-1001"]).2.2.2 :=
  C1_deactivate_first_success_amended.2.2.1 ["u1", "u2", "u3"] zeroPicks
    exStLoop 0 "pr-1001" [] exPr1 rfl rfl rfl (by simp)
